import Mathlib

/-!
Verification of the stack-trace symbolication engine of `error-tracking-api`
(`src/app/api/error/route.js`): the helpers `errorFromString` and
`mapStackTrace`.

JavaScript strings are modelled by Lean `String` (a wrapper around
`List Char`); the JS string operations used by the code (`split("\n")`,
`join("\n")`, `indexOf`, `slice`, `trim`, `padStart`, number-to-string) are
defined below at the character-list level.  Network effects (`fetch` of the
source map, the remote-source fallback fetch), the `stacktrace-js` frame
parser (`fromError`), the `source-map-js` consumer and WHATWG URL resolution
are external collaborators: they are modelled as oracle functions gathered
in an `Env` record, and all theorems quantify over the environment.
-/

/- ───────────────────── character-list string primitives ───────────────────── -/

/-- JS `s.split("\n")` at the character-list level.  Like the JS method it
never returns an empty list: splitting the empty string gives `[[]]`. -/
def splitChList : List Char → List (List Char)
  | [] => [[]]
  | c :: cs =>
    if c = '\n' then [] :: splitChList cs
    else
      match splitChList cs with
      | [] => [[c]]
      | l :: ls => (c :: l) :: ls

/-- JS `parts.join("\n")` at the character-list level. -/
def joinChList : List (List Char) → List Char
  | [] => []
  | [l] => l
  | l :: ls => l ++ '\n' :: joinChList ls

/-- JS `s.split("\n")`, producing Lean strings. -/
def jsSplitNl (s : String) : List String :=
  (splitChList s.data).map String.mk

/-- JS `parts.join("\n")`. -/
def joinNl (ls : List String) : String :=
  String.mk (joinChList (ls.map String.data))

/-- JS `s.trim()`: whitespace stripped from both ends. -/
def jsTrim (s : String) : String :=
  String.mk (((s.data.dropWhile Char.isWhitespace).reverse.dropWhile
    Char.isWhitespace).reverse)

/-- JS `s.indexOf(c)`, with `-1` rendered as `none`. -/
def jsIndexOf (s : String) (c : Char) : Option Nat :=
  s.data.findIdx? (· == c)

/-- JS `s.slice(a, b)` for `0 ≤ a ≤ b`. -/
def jsStrSlice (s : String) (a b : Nat) : String :=
  String.mk ((s.data.drop a).take (b - a))

/-- JS `s.slice(a)` (slice to the end of the string). -/
def jsStrSliceFrom (s : String) (a : Nat) : String :=
  String.mk (s.data.drop a)

/-- JS `a || b` on strings: the empty string is falsy. -/
def jsOr (a b : String) : String :=
  if a.isEmpty then b else a

/-- JS `s.padStart(n)` (spaces). -/
def jsPadStart (s : String) (n : Nat) : String :=
  String.mk (List.replicate (n - s.length) ' ') ++ s

/-- Decimal digits of `n`, most significant first; structural recursion on a
fuel argument so that the kernel can evaluate it (`fuel ≥ 1` plus one unit
per extra digit suffices, so `n` itself is always enough fuel). -/
def natToStringAux : Nat → Nat → List Char
  | 0, _ => []
  | fuel + 1, n =>
    if n < 10 then [Nat.digitChar n]
    else natToStringAux fuel (n / 10) ++ [Nat.digitChar (n % 10)]

/-- JS `n.toString()` for a non-negative integer: decimal digits. -/
def natToString (n : Nat) : String :=
  String.mk (natToStringAux (n + 1) n)

/-- JS `xs.slice(a, b)` on arrays. -/
def jsSlice (xs : List String) (a b : Nat) : List String :=
  (xs.drop a).take (b - a)

/-- JS `xs.map((l, idx) => f idx l)`, carrying the running index. -/
def jsMapIdx (f : Nat → String → String) : Nat → List String → List String
  | _, [] => []
  | i, l :: ls => f i l :: jsMapIdx f (i + 1) ls

/- ───────────────────── data model ───────────────────── -/

/-- The JS `Error` object as built by `errorFromString`. -/
structure JsError where
  name : String
  message : String
  stack : String
deriving DecidableEq

/-- A raw stack frame as produced by `stacktrace-js`'s `fromError`.
`fileName` is `none` (or `some ""`, both falsy in JS) for frames without a
file reference. -/
structure StackFrame where
  functionName : Option String
  fileName : Option String
  lineNumber : Nat
  columnNumber : Nat
deriving DecidableEq

/-- The result of `consumer.originalPositionFor`: all fields may be null. -/
structure OrigPos where
  source : Option String
  line : Option Nat
  column : Option Nat
  name : Option String
deriving DecidableEq

/-- The parsed source map (`source-map-js`'s `SourceMapConsumer`), abstracted
to the two queries the code performs on it. -/
structure SourceMapConsumer where
  originalPositionFor : Nat → Nat → OrigPos
  sourceContentFor : String → Option String

/-- One symbolicated frame pushed onto `out`:
`{ function: f.functionName, ...pos, snippet }`. -/
structure Entry where
  function : Option String
  source : Option String
  line : Option Nat
  column : Option Nat
  name : Option String
  snippet : String
deriving DecidableEq

/-- An element of the `out` array: either a symbolicated frame or the
`{ separator: true }` marker. -/
inductive Out where
  | sep : Out
  | frame : Entry → Out
deriving DecidableEq

/-- The external collaborators of `mapStackTrace`, as oracles.

* `fromError` models `stacktrace-js`'s frame parser (library code).
* `fetchMap` models `fetch(mapURL, {cache:"no-store"})` followed by the
  `resp.ok` check and `new SourceMapConsumer(rawMap)`: `none` means the
  response was not ok; `some c` is the parsed consumer (construction is
  assumed to succeed on an ok response).
* `resolveURL` models `new URL(relative, base).href`.
* `fetchSnippet` — Modelled from the spec: the function `fetchSnippet` is
  called by `mapStackTrace` but is not defined in the sources at hand; per
  the spec's remote fallback it fetches the resolved absolute URL and
  returns the already formatted ±5-line snippet, or null when the fetch
  fails or the text is empty.  `none` models that null. -/
structure Env where
  fromError : JsError → List StackFrame
  fetchMap : String → Option SourceMapConsumer
  resolveURL : String → String → String
  fetchSnippet : String → Nat → Option String

/- ───────────────────── errorFromString ───────────────────── -/

/-- `errorFromString` from `route.js`: split on line breaks, parse the first
line as `"<Name>: <Message>"` via the first colon (defaulting the name to
`"Error"`, also when the trimmed name is empty), and reassemble `err.stack`
from the first line and the rest. -/
def errorFromString (stackString : String) : JsError :=
  let parts := jsSplitNl stackString
  let firstLine := parts.headD ""
  let rest := parts.tail
  let stack := joinNl (firstLine :: rest)
  match jsIndexOf firstLine ':' with
  | none => { name := "Error", message := firstLine, stack := stack }
  | some colon =>
      { name := jsOr (jsTrim (jsStrSlice firstLine 0 colon)) "Error"
        message := jsTrim (jsStrSliceFrom firstLine (colon + 1))
        stack := stack }

/- ───────────────────── snippet construction ───────────────────── -/

/-- The `ctx` constant of `mapStackTrace`. -/
def ctxLines : Nat := 5

/-- One rendered snippet line: the target line gets the marker `">> "`, a
context line the blank marker `"   "`, followed by the line number padded to
width 4, then `" | "` and the source text. -/
def formatLine (ln targetLine : Nat) (l : String) : String :=
  if ln = targetLine then ">> " ++ jsPadStart (natToString ln) 4 ++ " | " ++ l
  else "   " ++ jsPadStart (natToString ln) 4 ++ " | " ++ l

/-- The `lines.slice(start, end).map(...)` of the inline-source branch:
the formatted body lines of a snippet, before joining. -/
def bodyLines (lines : List String) (targetLine : Nat) : List String :=
  let start := (max 0 ((targetLine : Int) - (ctxLines : Int) - 1)).toNat
  let stop := min lines.length (targetLine + ctxLines)
  jsMapIdx (fun idx l => formatLine (start + idx + 1) targetLine l) 0
    (jsSlice lines start stop)

/-- The snippet body built from inline source text: split, window, format,
join. -/
def snippetBody (sourceText : String) (targetLine : Nat) : String :=
  joinNl (bodyLines (jsSplitNl sourceText) targetLine)

/- ───────────────────── the per-frame pipeline ───────────────────── -/

/-- What one iteration of the `for (const f of frames)` loop contributes:
`some entry` when the frame is pushed onto `out`, `none` when one of the
`continue`/guard paths drops it.  Mirrors the loop body of `mapStackTrace`;
both push sites of the source are preceded by the identical
`if (out.length) out.push({separator:true})`, which `loopBody` applies
uniformly. -/
def emit (env : Env) (f : StackFrame) : Option Entry :=
  match f.fileName with
  | none => none
  | some fn =>
    if fn.isEmpty then none
    else
      let mapURL := fn ++ ".map"
      match env.fetchMap mapURL with
      | none => none
      | some consumer =>
        let pos := consumer.originalPositionFor f.lineNumber f.columnNumber
        match pos.source, pos.line with
        | some src, some line =>
          if src.isEmpty || line == 0 then none
          else
            let inline := consumer.sourceContentFor src
            match inline with
            | some t =>
              if t.isEmpty then
                match env.fetchSnippet (env.resolveURL src mapURL) line with
                | some txt =>
                  if txt.isEmpty then none
                  else some { function := f.functionName, source := pos.source,
                              line := pos.line, column := pos.column,
                              name := pos.name,
                              snippet := "──────── " ++ src ++ " ────────\n" ++ txt }
                | none => none
              else
                some { function := f.functionName, source := pos.source,
                       line := pos.line, column := pos.column, name := pos.name,
                       snippet := "──────── " ++ src ++ " ────────\n" ++
                         snippetBody t line }
            | none =>
              match env.fetchSnippet (env.resolveURL src mapURL) line with
              | some txt =>
                if txt.isEmpty then none
                else some { function := f.functionName, source := pos.source,
                            line := pos.line, column := pos.column,
                            name := pos.name,
                            snippet := "──────── " ++ src ++ " ────────\n" ++ txt }
              | none => none
        | _, _ => none

/-- One iteration of the loop acting on the accumulator `out`:
`if (out.length) out.push({separator:true}); out.push(entry)`. -/
def loopBody (env : Env) (out : List Out) (f : StackFrame) : List Out :=
  match emit env f with
  | none => out
  | some e => if out.isEmpty then out ++ [Out.frame e]
              else out ++ [Out.sep, Out.frame e]

/-- `mapStackTrace` from `route.js`: build the error object, parse frames,
and fold the loop body over them starting from the empty `out`. -/
def mapStackTrace (env : Env) (minifiedStack : String) : List Out :=
  let errObj := errorFromString minifiedStack
  let frames := env.fromError errObj
  frames.foldl (loopBody env) []

/- ───────────────────── observers on the output ───────────────────── -/

/-- The symbolicated frames of an output, separator markers removed. -/
def entriesOf (out : List Out) : List Entry :=
  out.filterMap fun o => match o with
    | Out.sep => none
    | Out.frame e => some e

/-- Entries interleaved with separators: the shape `mapStackTrace` builds. -/
def withSeps : List Entry → List Out
  | [] => []
  | e :: es => Out.frame e :: es.flatMap (fun x => [Out.sep, Out.frame x])

/-- Is this output element the separator marker? -/
def isSep : Out → Bool
  | Out.sep => true
  | Out.frame _ => false

/-- Adjacent output elements always alternate between separator and frame. -/
def alternating : List Out → Bool
  | [] => true
  | [_] => true
  | x :: y :: rest => (isSep x != isSep y) && alternating (y :: rest)

/-- The output neither begins nor ends with a separator marker. -/
def noSepEnds (out : List Out) : Bool :=
  (match out.head? with
   | some o => !isSep o
   | none => true) &&
  (match out.getLast? with
   | some o => !isSep o
   | none => true)

/-- Does a rendered snippet line carry the target marker `">> "`? -/
def marked (s : String) : Bool :=
  s.data.take 3 == ">> ".data

/- ───────────────────── spec-side definitions ───────────────────── -/

/-- The claim's literal reading of the header name: the raw text before the
first colon, no trimming and no empty fallback. -/
def specHeaderNameLiteral (s : String) : String :=
  let firstLine := (jsSplitNl s).headD ""
  match jsIndexOf firstLine ':' with
  | none => "Error"
  | some colon => jsStrSlice firstLine 0 colon

/-- The claim's literal reading of the header message: the raw text after the
first colon, no trimming. -/
def specHeaderMessageLiteral (s : String) : String :=
  let firstLine := (jsSplitNl s).headD ""
  match jsIndexOf firstLine ':' with
  | none => firstLine
  | some colon => jsStrSliceFrom firstLine (colon + 1)

/-- Amended spec reading of the header name: text before the first colon,
trimmed, defaulting to `"Error"` when absent or empty after trimming. -/
def specHeaderNameAmended (s : String) : String :=
  let firstLine := (jsSplitNl s).headD ""
  match jsIndexOf firstLine ':' with
  | none => "Error"
  | some colon => jsOr (jsTrim (jsStrSlice firstLine 0 colon)) "Error"

/-- Amended spec reading of the header message: text after the first colon,
trimmed; the whole first line when there is no colon. -/
def specHeaderMessageAmended (s : String) : String :=
  let firstLine := (jsSplitNl s).headD ""
  match jsIndexOf firstLine ':' with
  | none => firstLine
  | some colon => jsTrim (jsStrSliceFrom firstLine (colon + 1))

/- ───────────────────── concrete demonstration data ───────────────────── -/

/-- A frame that symbolicates via the inline-source path. -/
def demoFrame1 : StackFrame := ⟨some "foo", some "app.min.js", 1, 50⟩

/-- A frame with no file reference. -/
def demoFrameNoFile : StackFrame := ⟨some "native", none, 1, 1⟩

/-- A frame whose source-map fetch fails (404). -/
def demoFrameNoMap : StackFrame := ⟨some "bar", some "missing.js", 3, 7⟩

/-- A frame whose map resolves but has neither inline nor remote source. -/
def demoFrameFb : StackFrame := ⟨some "q", some "fb.js", 1, 1⟩

/-- A second frame symbolicating via the inline-source path. -/
def demoFrame2 : StackFrame := ⟨some "goo", some "app.min.js", 5, 9⟩

/-- A consumer mapping everything to `app.js:2:1` with inline source text. -/
def demoConsumer : SourceMapConsumer :=
  ⟨fun _ _ => ⟨some "app.js", some 2, some 1, none⟩, fun _ => some "a\nb\nc"⟩

/-- A consumer that resolves positions but carries no inline source text. -/
def demoConsumerNoSrc : SourceMapConsumer :=
  ⟨fun _ _ => ⟨some "orig.js", some 1, some 0, none⟩, fun _ => none⟩

/-- A concrete environment exercising every per-frame outcome. -/
def demoEnv : Env :=
  ⟨fun _ => [demoFrame1, demoFrameNoFile, demoFrameNoMap, demoFrameFb, demoFrame2],
   fun u => if u = "app.min.js.map" then some demoConsumer
            else if u = "fb.js.map" then some demoConsumerNoSrc else none,
   fun src _ => src,
   fun _ _ => none⟩

/-- The same environment written differently (extensionally equal oracles). -/
def demoEnvB : Env :=
  ⟨fun _ => [demoFrame1, demoFrameNoFile, demoFrameNoMap, demoFrameFb, demoFrame2],
   fun u => if u = "app.min.js.map" then some demoConsumer
            else if u = "fb.js.map" then some demoConsumerNoSrc else none,
   fun src _ => src,
   fun _ _ => id none⟩

/-- An environment whose only frame's source-map fetch returns 404. -/
def demoEnvSolo : Env :=
  ⟨fun _ => [demoFrameNoMap],
   fun u => if u = "app.min.js.map" then some demoConsumer else none,
   fun src _ => src,
   fun _ _ => none⟩

/-- The entry `demoFrame1` contributes under `demoEnv`. -/
def demoEntryA : Entry :=
  ⟨some "foo", some "app.js", some 2, some 1, none,
   "──────── app.js ────────\n      1 | a\n>>    2 | b\n      3 | c"⟩

/-- The entry `demoFrame2` contributes under `demoEnv`. -/
def demoEntryB : Entry :=
  ⟨some "goo", some "app.js", some 2, some 1, none,
   "──────── app.js ────────\n      1 | a\n>>    2 | b\n      3 | c"⟩

/- ───────────────────── split/join roundtrip ───────────────────── -/

theorem splitChList_ne_nil (cs : List Char) : splitChList cs ≠ [] := by
  cases cs with
  | nil => simp [splitChList]
  | cons c cs =>
    simp only [splitChList]
    split
    · simp
    · cases h : splitChList cs <;> simp

theorem joinChList_cons_cons (c : Char) (l : List Char) (ls : List (List Char)) :
    joinChList ((c :: l) :: ls) = c :: joinChList (l :: ls) := by
  cases ls <;> rfl

theorem joinChList_splitChList (cs : List Char) :
    joinChList (splitChList cs) = cs := by
  induction cs with
  | nil => rfl
  | cons c cs ih =>
    by_cases h : c = '\n'
    · subst h
      simp only [splitChList, if_pos rfl]
      cases hs : splitChList cs with
      | nil => exact absurd hs (splitChList_ne_nil cs)
      | cons r rs =>
        show joinChList ([] :: r :: rs) = '\n' :: cs
        show [] ++ '\n' :: joinChList (r :: rs) = '\n' :: cs
        rw [hs] at ih
        simp [ih]
    · simp only [splitChList, if_neg h]
      cases hs : splitChList cs with
      | nil => exact absurd hs (splitChList_ne_nil cs)
      | cons r rs =>
        rw [hs] at ih
        rw [joinChList_cons_cons, ih]

theorem jsSplitNl_ne_nil (s : String) : jsSplitNl s ≠ [] := by
  simp [jsSplitNl, splitChList_ne_nil]

theorem joinNl_jsSplitNl (s : String) : joinNl (jsSplitNl s) = s := by
  unfold joinNl jsSplitNl
  rw [List.map_map]
  have hdm : (String.data ∘ String.mk) = id := rfl
  rw [hdm, List.map_id, joinChList_splitChList]

theorem headD_cons_tail {α : Type} (l : List α) (h : l ≠ []) (d : α) :
    l.headD d :: l.tail = l := by
  cases l with
  | nil => exact absurd rfl h
  | cons x xs => rfl

/- ───────────────────── C10: the stack text is preserved ───────────────────── -/

/-- C10: for every input string `s`, the Error value built by the header
parser carries the original stack text unchanged: `errorFromString s` has
`stack = s` (splitting on newlines and rejoining the first line with the
rest is the identity), so frame parsing downstream sees the caller's exact
trace text. -/
theorem errorFromString_stack_id (s : String) : (errorFromString s).stack = s := by
  have hne := jsSplitNl_ne_nil s
  have hparts : (jsSplitNl s).headD "" :: (jsSplitNl s).tail = jsSplitNl s :=
    headD_cons_tail _ hne _
  unfold errorFromString
  cases h : jsIndexOf ((jsSplitNl s).headD "") ':' <;>
    simp only [h] <;> rw [hparts, joinNl_jsSplitNl]

/- ───────────────────── C6: header parsing ───────────────────── -/

/-- C6 counterexample: on the input `": boom"` the first line has a colon at
index 0 and the claim's literal reading makes the name the text before it,
the empty string; the code instead trims the slice and falls back to
`"Error"`, so the claim as stated is false. -/
theorem header_name_not_literal :
    (errorFromString ": boom").name ≠ specHeaderNameLiteral ": boom" := by
  decide

/-- C6 (amended): splitting on line breaks, the first line is parsed by its
first colon; if a colon exists, the name is the text before it, trimmed,
defaulting to `"Error"` when that trim is empty, and the message is the text
after it, trimmed; if no colon exists the name is `"Error"` and the whole
first line is the message.  The parse is total: it never fails. -/
theorem header_parse_amended (s : String) :
    (errorFromString s).name = specHeaderNameAmended s ∧
      (errorFromString s).message = specHeaderMessageAmended s := by
  cases h : jsIndexOf ((jsSplitNl s).headD "") ':' <;>
    simp only [errorFromString, specHeaderNameAmended, specHeaderMessageAmended,
      h] <;> exact ⟨trivial, trivial⟩

/- ───────────────────── pipeline structure ───────────────────── -/

theorem foldl_loopBody_acc (env : Env) (fs : List StackFrame) :
    ∀ (out : List Out), out ≠ [] →
      List.foldl (loopBody env) out fs =
        out ++ (fs.filterMap (emit env)).flatMap (fun x => [Out.sep, Out.frame x]) := by
  induction fs with
  | nil => intro out _; simp
  | cons f fs ih =>
    intro out h
    rw [List.foldl_cons]
    cases he : emit env f with
    | none =>
      have hlb : loopBody env out f = out := by unfold loopBody; rw [he]
      rw [hlb, ih out h]
      simp [List.filterMap_cons, he]
    | some e =>
      have hemp : out.isEmpty = false := by
        cases out with
        | nil => exact absurd rfl h
        | cons _ _ => rfl
      have hlb : loopBody env out f = out ++ [Out.sep, Out.frame e] := by
        unfold loopBody; rw [he]; simp [hemp]
      rw [hlb, ih (out ++ [Out.sep, Out.frame e]) (by simp)]
      simp [List.filterMap_cons, he]

theorem foldl_loopBody_nil (env : Env) (fs : List StackFrame) :
    List.foldl (loopBody env) [] fs = withSeps (fs.filterMap (emit env)) := by
  induction fs with
  | nil => rfl
  | cons f fs ih =>
    rw [List.foldl_cons]
    cases he : emit env f with
    | none =>
      have hlb : loopBody env [] f = [] := by unfold loopBody; rw [he]
      rw [hlb, ih]
      simp [List.filterMap_cons, he]
    | some e =>
      have hlb : loopBody env [] f = [Out.frame e] := by
        unfold loopBody; rw [he]; rfl
      rw [hlb, foldl_loopBody_acc env fs [Out.frame e] (by simp)]
      simp [List.filterMap_cons, he, withSeps]

theorem mapStackTrace_eq_withSeps (env : Env) (s : String) :
    mapStackTrace env s =
      withSeps ((env.fromError (errorFromString s)).filterMap (emit env)) := by
  unfold mapStackTrace
  exact foldl_loopBody_nil env _

theorem entriesOf_flat (es : List Entry) :
    entriesOf (es.flatMap (fun x => [Out.sep, Out.frame x])) = es := by
  induction es with
  | nil => rfl
  | cons e es ih =>
    rw [List.flatMap_cons]
    show entriesOf ([Out.sep, Out.frame e] ++ _) = _
    unfold entriesOf at ih ⊢
    rw [List.filterMap_append, ih]
    rfl

theorem entriesOf_withSeps (es : List Entry) : entriesOf (withSeps es) = es := by
  cases es with
  | nil => rfl
  | cons e es =>
    show entriesOf (Out.frame e :: es.flatMap (fun x => [Out.sep, Out.frame x])) = e :: es
    unfold entriesOf
    rw [List.filterMap_cons]
    have := entriesOf_flat es
    unfold entriesOf at this
    simp [this]

theorem entries_mapStackTrace (env : Env) (s : String) :
    entriesOf (mapStackTrace env s) =
      (env.fromError (errorFromString s)).filterMap (emit env) := by
  rw [mapStackTrace_eq_withSeps, entriesOf_withSeps]

/- ───────────────────── C7: separator placement ───────────────────── -/

theorem withSeps_cons_cons (e r : Entry) (rs : List Entry) :
    withSeps (e :: r :: rs) = Out.frame e :: Out.sep :: withSeps (r :: rs) := by
  show Out.frame e :: (r :: rs).flatMap (fun x => [Out.sep, Out.frame x]) = _
  rw [List.flatMap_cons]
  rfl

theorem alternating_withSeps (es : List Entry) :
    alternating (withSeps es) = true := by
  induction es with
  | nil => rfl
  | cons e es ih =>
    cases es with
    | nil => rfl
    | cons r rs =>
      rw [withSeps_cons_cons]
      have hw : withSeps (r :: rs) =
          Out.frame r :: rs.flatMap (fun x => [Out.sep, Out.frame x]) := rfl
      rw [hw] at ih ⊢
      simp only [alternating, isSep, Bool.and_eq_true] at ih ⊢
      exact ⟨rfl, rfl, ih⟩

theorem withSeps_getLast_frame (es : List Entry) (e : Entry) :
    ∃ x, (withSeps (e :: es)).getLast? = some (Out.frame x) := by
  induction es generalizing e with
  | nil => exact ⟨e, rfl⟩
  | cons r rs ih =>
    rw [withSeps_cons_cons]
    have hw : withSeps (r :: rs) =
        Out.frame r :: rs.flatMap (fun x => [Out.sep, Out.frame x]) := rfl
    obtain ⟨x, hx⟩ := ih r
    refine ⟨x, ?_⟩
    rw [hw, List.getLast?_cons_cons, List.getLast?_cons_cons, ← hw, hx]

theorem noSepEnds_withSeps (es : List Entry) :
    noSepEnds (withSeps es) = true := by
  cases es with
  | nil => rfl
  | cons e es =>
    obtain ⟨x, hx⟩ := withSeps_getLast_frame es e
    have hh : (withSeps (e :: es)).head? = some (Out.frame e) := by
      show (Out.frame e :: _).head? = _
      rfl
    unfold noSepEnds
    rw [hx, hh]
    rfl

/-- C7: in every pipeline output the separator marker occurs exactly between
consecutive symbolicated frames and nowhere else: the output never begins or
ends with a separator (`noSepEnds`) and adjacent elements always alternate
between frame and separator (`alternating`), so there are never two adjacent
separators and between two consecutive frames sits exactly one separator. -/
theorem mapStackTrace_separators (env : Env) (s : String) :
    noSepEnds (mapStackTrace env s) = true ∧
      alternating (mapStackTrace env s) = true := by
  rw [mapStackTrace_eq_withSeps]
  exact ⟨noSepEnds_withSeps _, alternating_withSeps _⟩

/- ───────────────────── C1: order preservation ───────────────────── -/

theorem filterMap_getElem_at (F : StackFrame → Option Entry)
    (l : List StackFrame) (i : Nat) (x : StackFrame) (a : Entry)
    (hx : l[i]? = some x) (ha : F x = some a) :
    (l.filterMap F)[((l.take i).filterMap F).length]? = some a := by
  obtain ⟨hi, hxi⟩ := List.getElem?_eq_some.mp hx
  have hsplit : l.filterMap F =
      (l.take i).filterMap F ++ a :: (l.drop (i + 1)).filterMap F := by
    conv_lhs => rw [← List.take_append_drop i l]
    rw [List.drop_eq_getElem_cons hi, hxi, List.filterMap_append]
    simp [List.filterMap_cons, ha]
  rw [hsplit, List.getElem?_append_right (le_refl _)]
  simp

theorem filterMap_take_length_lt (F : StackFrame → Option Entry)
    (l : List StackFrame) (i j : Nat) (x : StackFrame) (a : Entry)
    (hij : i < j) (hx : l[i]? = some x) (ha : F x = some a) :
    ((l.take i).filterMap F).length < ((l.take j).filterMap F).length := by
  have h1 : l.take j = l.take (i + 1) ++ (l.take j).drop (i + 1) := by
    conv_lhs => rw [← List.take_append_drop (i + 1) (l.take j)]
    rw [List.take_take, min_eq_left (by omega)]
  have h2 : l.take (i + 1) = l.take i ++ [x] := by
    rw [List.take_succ, hx]
    rfl
  rw [h1, h2]
  simp only [List.filterMap_append, List.length_append, List.filterMap_cons, ha,
    List.filterMap_nil, List.length_cons, List.length_nil]
  omega

/-- C1: the pipeline preserves the relative order of the raw frames.  If
frame `i` precedes frame `j` in the parsed input (`env.fromError` on the
error built from the stack string) and both produce output entries, then the
entry of frame `i` precedes the entry of frame `j` in the sequence of
symbolicated frames of the output; frames that emit nothing are simply
absent (`mapStackTrace` is total, so a dropped frame never fails the whole
trace). -/
theorem mapStackTrace_order (env : Env) (s : String) (i j : Nat)
    (fi fj : StackFrame) (a b : Entry) (hij : i < j)
    (hi : (env.fromError (errorFromString s))[i]? = some fi)
    (hj : (env.fromError (errorFromString s))[j]? = some fj)
    (ha : emit env fi = some a) (hb : emit env fj = some b) :
    ∃ p q : Nat, p < q ∧ (entriesOf (mapStackTrace env s))[p]? = some a ∧
      (entriesOf (mapStackTrace env s))[q]? = some b := by
  refine ⟨(((env.fromError (errorFromString s)).take i).filterMap (emit env)).length,
    (((env.fromError (errorFromString s)).take j).filterMap (emit env)).length,
    ?_, ?_, ?_⟩
  · exact filterMap_take_length_lt (emit env) _ i j fi a hij hi ha
  · rw [entries_mapStackTrace]
    exact filterMap_getElem_at (emit env) _ i fi a hi ha
  · rw [entries_mapStackTrace]
    exact filterMap_getElem_at (emit env) _ j fj b hj hb

/- ───────────────────── dropped frames leave the rest untouched ───────────────────── -/

theorem entries_erase_none (env : Env) (s : String) (xs ys : List StackFrame)
    (f : StackFrame)
    (hsplit : env.fromError (errorFromString s) = xs ++ f :: ys)
    (hnone : emit env f = none) :
    entriesOf (mapStackTrace env s) = (xs ++ ys).filterMap (emit env) := by
  rw [entries_mapStackTrace, hsplit, List.filterMap_append, List.filterMap_append]
  simp [List.filterMap_cons, hnone]

theorem emit_none_of_no_file (env : Env) (f : StackFrame)
    (h : f.fileName = none ∨ f.fileName = some "") : emit env f = none := by
  unfold emit
  rcases h with h | h <;> rw [h]
  rfl

theorem emit_none_of_fetch_fail (env : Env) (f : StackFrame) (fn : String)
    (hfn : f.fileName = some fn) (hne : fn.isEmpty = false)
    (hfetch : env.fetchMap (fn ++ ".map") = none) : emit env f = none := by
  unfold emit
  rw [hfn]
  simp [hne, hfetch]

/- ───────────────────── C5: frames with no file reference ───────────────────── -/

/-- C5: a frame of the parsed trace with no file reference (`fileName`
absent, or the empty string — both falsy under `if (!f.fileName) continue`)
is dropped without error: it contributes no entry, and the remaining frames
produce exactly the entries they would produce if the frame were not
present at all. -/
theorem no_file_frame_dropped (env : Env) (s : String) (xs ys : List StackFrame)
    (f : StackFrame)
    (hsplit : env.fromError (errorFromString s) = xs ++ f :: ys)
    (hfile : f.fileName = none ∨ f.fileName = some "") :
    entriesOf (mapStackTrace env s) = (xs ++ ys).filterMap (emit env) := by
  exact entries_erase_none env s xs ys f hsplit (emit_none_of_no_file env f hfile)

/-- C5 witness: under `demoEnv` the second parsed frame has no file name and
the output entries are exactly those of the other four frames. -/
theorem no_file_frame_dropped_example :
    entriesOf (mapStackTrace demoEnv "E: m") =
      ([demoFrame1] ++ [demoFrameNoMap, demoFrameFb, demoFrame2]).filterMap
        (emit demoEnv) :=
  no_file_frame_dropped demoEnv "E: m" [demoFrame1]
    [demoFrameNoMap, demoFrameFb, demoFrame2] demoFrameNoFile rfl (Or.inl rfl)

/- ───────────────────── C4: map fetch failure ───────────────────── -/

/-- C4: a frame whose source-map fetch (at `fileName ++ ".map"`) returns a
non-success response (`fetchMap = none` models `!resp.ok`) produces no
output entry, and the remaining frames produce exactly the entries they
would produce without it; in particular a single-frame trace whose map fetch
fails yields the empty output. -/
theorem fetch_fail_frame_dropped (env : Env) (s : String)
    (xs ys : List StackFrame) (f : StackFrame) (fn : String)
    (hsplit : env.fromError (errorFromString s) = xs ++ f :: ys)
    (hfn : f.fileName = some fn) (hne : fn.isEmpty = false)
    (hfetch : env.fetchMap (fn ++ ".map") = none) :
    entriesOf (mapStackTrace env s) = (xs ++ ys).filterMap (emit env) ∧
      (xs = [] → ys = [] → mapStackTrace env s = []) := by
  have hnone := emit_none_of_fetch_fail env f fn hfn hne hfetch
  refine ⟨entries_erase_none env s xs ys f hsplit hnone, ?_⟩
  intro hx hy
  rw [mapStackTrace_eq_withSeps, hsplit, hx, hy]
  simp [List.filterMap_cons, hnone, withSeps]

/-- C4 witness: `demoEnvSolo` parses a single frame whose map fetch fails
(404); the theorem applies with empty surrounding frame lists and the
pipeline output is the empty sequence. -/
theorem fetch_fail_frame_dropped_example :
    entriesOf (mapStackTrace demoEnvSolo "E") =
        (([] : List StackFrame) ++ ([] : List StackFrame)).filterMap
          (emit demoEnvSolo) ∧
      (([] : List StackFrame) = [] → ([] : List StackFrame) = [] →
        mapStackTrace demoEnvSolo "E" = []) :=
  fetch_fail_frame_dropped demoEnvSolo "E" [] [] demoFrameNoMap "missing.js"
    rfl rfl (by decide) rfl

/- ───────────────────── C2: missing source text ───────────────────── -/

/-- C2: when a frame's position resolves (`source` truthy, `line` truthy)
but the map carries no inline source text (falsy `sourceContentFor`), the
code resolves `pos.source` against the map URL and queries the remote
fallback (`fetchSnippet` on `resolveURL src (fn ++ ".map")`); if that fetch
fails or returns the empty string, the frame emits nothing and the rest of
the trace produces exactly the entries it would produce without this frame —
`mapStackTrace` is total, so nothing is thrown. -/
theorem fallback_fail_frame_dropped (env : Env) (s : String)
    (xs ys : List StackFrame) (f : StackFrame) (fn src : String) (line : Nat)
    (consumer : SourceMapConsumer)
    (hsplit : env.fromError (errorFromString s) = xs ++ f :: ys)
    (hfn : f.fileName = some fn) (hne : fn.isEmpty = false)
    (hfetch : env.fetchMap (fn ++ ".map") = some consumer)
    (hsrc : (consumer.originalPositionFor f.lineNumber f.columnNumber).source
      = some src)
    (hsne : src.isEmpty = false)
    (hline : (consumer.originalPositionFor f.lineNumber f.columnNumber).line
      = some line)
    (hlne : line ≠ 0)
    (hinline : consumer.sourceContentFor src = none ∨
      consumer.sourceContentFor src = some "")
    (hremote : env.fetchSnippet (env.resolveURL src (fn ++ ".map")) line = none ∨
      env.fetchSnippet (env.resolveURL src (fn ++ ".map")) line = some "") :
    emit env f = none ∧
      entriesOf (mapStackTrace env s) = (xs ++ ys).filterMap (emit env) := by
  have hnone : emit env f = none := by
    unfold emit
    rw [hfn]
    simp only [hne, Bool.false_eq_true, if_false, hfetch]
    rw [hsrc, hline]
    simp only [hsne, Bool.false_eq_true, Bool.false_or, beq_iff_eq, hlne,
      if_false]
    rcases hinline with hi | hi <;> rw [hi] <;>
      rcases hremote with hr | hr <;>
        simp [hr, show "".isEmpty = true from rfl]
  exact ⟨hnone, entries_erase_none env s xs ys f hsplit hnone⟩

/-- C2 witness: under `demoEnv` the fourth parsed frame resolves to
`orig.js:1` but has neither inline nor remote source text; it emits nothing
and the remaining frames' entries are unchanged. -/
theorem fallback_fail_frame_dropped_example :
    emit demoEnv demoFrameFb = none ∧
      entriesOf (mapStackTrace demoEnv "E: m") =
        ([demoFrame1, demoFrameNoFile, demoFrameNoMap] ++ [demoFrame2]).filterMap
          (emit demoEnv) :=
  fallback_fail_frame_dropped demoEnv "E: m"
    [demoFrame1, demoFrameNoFile, demoFrameNoMap] [demoFrame2] demoFrameFb
    "fb.js" "orig.js" 1 demoConsumerNoSrc rfl rfl (by decide) rfl rfl
    (by decide) rfl (by decide) (Or.inl rfl) (Or.inl rfl)

/- ───────────────────── C9: determinism ───────────────────── -/

/-- C9: symbolication is deterministic in the fetched content.  Two runs
against environments whose oracles agree pointwise — the same parsed frames,
the same source-map documents for every URL, the same URL resolution and the
same remote source text for every URL — produce identical output sequences. -/
theorem mapStackTrace_deterministic (env1 env2 : Env) (s : String)
    (hfe : ∀ e, env1.fromError e = env2.fromError e)
    (hfm : ∀ u, env1.fetchMap u = env2.fetchMap u)
    (hru : ∀ a b, env1.resolveURL a b = env2.resolveURL a b)
    (hfs : ∀ u n, env1.fetchSnippet u n = env2.fetchSnippet u n) :
    mapStackTrace env1 s = mapStackTrace env2 s := by
  have henv : env1 = env2 := by
    cases env1
    cases env2
    simp only [Env.mk.injEq]
    exact ⟨funext hfe, funext hfm, funext fun a => funext (hru a),
      funext fun u => funext (hfs u)⟩
  rw [henv]

/-- C9 witness: `demoEnv` and `demoEnvB` are syntactically different records
with pointwise-equal oracles; their outputs coincide. -/
theorem mapStackTrace_deterministic_example :
    mapStackTrace demoEnv "E: m" = mapStackTrace demoEnvB "E: m" :=
  mapStackTrace_deterministic demoEnv demoEnvB "E: m" (fun _ => rfl)
    (fun _ => rfl) (fun _ _ => rfl) (fun _ _ => rfl)


/- ───────────────────── C3: snippet windowing ───────────────────── -/

theorem jsMapIdx_eq_map_range' (g : Nat → String → String) (xs : List String) :
    ∀ j : Nat, jsMapIdx g j xs =
      (List.range' j xs.length).map (fun n => g n (xs.getD (n - j) "")) := by
  induction xs with
  | nil => intro j; rfl
  | cons x xs ih =>
    intro j
    show g j x :: jsMapIdx g (j + 1) xs = _
    rw [show (x :: xs).length = xs.length + 1 from rfl, List.range'_succ,
      List.map_cons, ih (j + 1)]
    congr 1
    · simp
    · refine List.map_congr_left fun n hn => ?_
      have hge : j + 1 ≤ n := by
        rw [List.mem_range'] at hn
        obtain ⟨i, _, rfl⟩ := hn
        omega
      have hsub : n - j = (n - (j + 1)) + 1 := by omega
      rw [hsub, List.getD_cons_succ]

theorem map_range'_shift (k : Nat) :
    ∀ (F : Nat → String) (s : Nat),
      (List.range' s k).map F = (List.range' 0 k).map (fun i => F (s + i)) := by
  induction k with
  | zero => intro F s; rfl
  | succ k ih =>
    intro F s
    rw [List.range'_succ, List.range'_succ, List.map_cons, List.map_cons,
      ih F (s + 1), ih (fun i => F (s + i)) 1]
    simp [Nat.add_assoc]

theorem bodyLines_eq_window (lines : List String) (L : Nat)
    (h1 : 1 ≤ L) (h2 : L ≤ lines.length) :
    bodyLines lines L =
      (List.range' (max 1 (L - 5)) (min lines.length (L + 5) + 1 - max 1 (L - 5))).map
        (fun n => formatLine n L (lines.getD (n - 1) "")) := by
  unfold bodyLines jsSlice
  have hstart : (max 0 ((L : Int) - (ctxLines : Int) - 1)).toNat = L - 6 := by
    simp only [ctxLines]
    omega
  rw [hstart]
  have hstop : min lines.length (L + ctxLines) = min lines.length (L + 5) := rfl
  rw [hstop]
  set e := min lines.length (L + 5) with he
  have hlen : ((lines.drop (L - 6)).take (e - (L - 6))).length = e - (L - 6) := by
    rw [List.length_take, List.length_drop]
    omega
  rw [jsMapIdx_eq_map_range' _ _ 0, hlen]
  have hk : e + 1 - max 1 (L - 5) = e - (L - 6) := by omega
  have ha : max 1 (L - 5) = (L - 6) + 1 := by omega
  rw [hk, ha, map_range'_shift (e - (L - 6)) _ ((L - 6) + 1)]
  refine List.map_congr_left fun n hn => ?_
  have hnk : n < e - (L - 6) := by
    rw [List.mem_range'] at hn
    obtain ⟨i, hi, rfl⟩ := hn
    omega
  have hidx : ((lines.drop (L - 6)).take (e - (L - 6))).getD (n - 0) "" =
      lines.getD ((L - 6) + n) "" := by
    rw [Nat.sub_zero, List.getD_eq_getElem?_getD, List.getD_eq_getElem?_getD,
      List.getElem?_take, if_pos hnk, List.getElem?_drop]
  rw [hidx]
  have hA : (L - 6) + n + 1 = (L - 6) + 1 + n := by omega
  have hB : (L - 6) + 1 + n - 1 = (L - 6) + n := by omega
  rw [hA, hB]

theorem marked_target_append (r : String) : marked (">> " ++ r) = true := by
  unfold marked
  rw [String.data_append]
  rfl

theorem marked_context_append (r : String) : marked ("   " ++ r) = false := by
  unfold marked
  rw [String.data_append]
  rfl

theorem marked_formatLine (n L : Nat) (t : String) :
    marked (formatLine n L t) = decide (n = L) := by
  unfold formatLine
  by_cases h : n = L
  · rw [if_pos h]
    simp only [String.append_assoc]
    rw [marked_target_append]
    simp [h]
  · rw [if_neg h]
    simp only [String.append_assoc]
    rw [marked_context_append]
    simp [h]

/-- C3: snippet windowing.  For a target line `L` with `1 ≤ L ≤ N` (`N` the
number of source lines), the snippet body is exactly the source lines
numbered `max 1 (L-5)` through `min N (L+5)` inclusive, in order, each
rendered by `formatLine`; and exactly one body line carries the target
marker `">> "` (the line numbered `L` — `formatLine` gives every other line
the context prefix instead). -/
theorem snippet_window (lines : List String) (L : Nat)
    (h1 : 1 ≤ L) (h2 : L ≤ lines.length) :
    bodyLines lines L =
        (List.range' (max 1 (L - 5))
          (min lines.length (L + 5) + 1 - max 1 (L - 5))).map
          (fun n => formatLine n L (lines.getD (n - 1) "")) ∧
      (bodyLines lines L).countP marked = 1 := by
  refine ⟨bodyLines_eq_window lines L h1 h2, ?_⟩
  rw [bodyLines_eq_window lines L h1 h2, List.countP_map]
  have h3 : List.countP (marked ∘ fun n => formatLine n L (lines.getD (n - 1) ""))
      (List.range' (max 1 (L - 5)) (min lines.length (L + 5) + 1 - max 1 (L - 5)))
      = List.count L (List.range' (max 1 (L - 5))
          (min lines.length (L + 5) + 1 - max 1 (L - 5))) := by
    refine List.countP_congr fun x _ => ?_
    show marked (formatLine x L _) = true ↔ (x == L) = true
    rw [marked_formatLine]
    simp
  rw [h3]
  refine List.count_eq_one_of_mem (List.nodup_range' _ _) ?_
  rw [List.mem_range']
  exact ⟨L - max 1 (L - 5), by omega, by omega⟩

/-- C3 witness: a three-line file with target line 2 gives the window 1–3
with exactly line 2 marked. -/
theorem snippet_window_example :
    bodyLines ["a", "b", "c"] 2 =
        (List.range' (max 1 (2 - 5)) (min (["a", "b", "c"] : List String).length
          (2 + 5) + 1 - max 1 (2 - 5))).map
          (fun n => formatLine n 2 (["a", "b", "c"].getD (n - 1) "")) ∧
      (bodyLines ["a", "b", "c"] 2).countP marked = 1 :=
  snippet_window ["a", "b", "c"] 2 (by decide) (by decide)

/- ───────────────────── C8: line rendering ───────────────────── -/

theorem natToStringAux_length :
    ∀ (fuel k n : Nat), n < fuel → n < 10 ^ k → 1 ≤ k →
      (natToStringAux fuel n).length ≤ k := by
  intro fuel
  induction fuel with
  | zero => intro k n hf _ _; omega
  | succ fuel ih =>
    intro k n hf hk h1
    show (if n < 10 then [Nat.digitChar n]
      else natToStringAux fuel (n / 10) ++ [Nat.digitChar (n % 10)]).length ≤ k
    by_cases hn : n < 10
    · rw [if_pos hn]
      simpa using h1
    · rw [if_neg hn, List.length_append]
      cases k with
      | zero => omega
      | succ k' =>
        cases k' with
        | zero =>
          rw [pow_one] at hk
          omega
        | succ k'' =>
          have hdiv : n / 10 < fuel := by omega
          have hpow : (10 : Nat) ^ (k'' + 2) = 10 ^ (k'' + 1) * 10 := by ring
          have hdk : n / 10 < 10 ^ (k'' + 1) := by
            rw [hpow] at hk
            omega
          have hlen := ih (k'' + 1) (n / 10) hdiv hdk (by omega)
          simp only [List.length_cons, List.length_nil]
          omega

theorem natToString_length_le (n : Nat) (h : n ≤ 9999) :
    (natToString n).length ≤ 4 := by
  show (natToStringAux (n + 1) n).length ≤ 4
  have hpow : (10 : Nat) ^ 4 = 10000 := by norm_num
  exact natToStringAux_length (n + 1) 4 n (by omega) (by omega) (by omega)

theorem jsPadStart_length (s : String) (n : Nat) :
    (jsPadStart s n).length = max n s.length := by
  unfold jsPadStart
  rw [String.length_append]
  show (List.replicate (n - s.length) ' ').length + s.length = max n s.length
  rw [List.length_replicate]
  omega

theorem formatLine_length (ln L : Nat) (t : String) :
    (formatLine ln L t).length = 6 + max 4 (natToString ln).length + t.length := by
  have e1 : (">> ").length = 3 := rfl
  have e2 : ("   ").length = 3 := rfl
  have e3 : (" | ").length = 3 := rfl
  unfold formatLine
  by_cases h : ln = L <;>
    simp only [h, if_true, if_false, String.length_append, jsPadStart_length,
      e1, e2, e3, if_pos, reduceIte] <;>
    omega

/-- C8 (amended): every rendered snippet line has the shape marker (3 chars,
`">> "` for the target line, `"   "` otherwise — the target is marked
distinctly) followed by the line number right-aligned via `padStart` to a
minimum width of 4, the separator `" | "`, and the source text.  For all
line numbers up to 9999 the number field has exactly width 4, so the prefix
width is the constant 10; line numbers with five or more digits widen the
field (see the counterexample), so the width is fixed only up to 9999. -/
theorem line_render_amended (ln L : Nat) (t : String) (h : ln ≤ 9999) :
    (formatLine ln L t).length = 10 + t.length ∧
      formatLine ln L t = (if ln = L then ">> " else "   ") ++
        jsPadStart (natToString ln) 4 ++ " | " ++ t ∧
      marked (formatLine L L t) = true ∧
      (ln ≠ L → marked (formatLine ln L t) = false) := by
  refine ⟨?_, ?_, ?_, ?_⟩
  · rw [formatLine_length]
    have := natToString_length_le ln h
    omega
  · unfold formatLine
    by_cases hln : ln = L <;> simp [hln]
  · rw [marked_formatLine]
    simp
  · intro hne
    rw [marked_formatLine]
    simp [hne]

/-- C8 witness: at line number 42 the rendered line has prefix width 10 and
carries the target marker when it is the target. -/
theorem line_render_amended_example :
    (formatLine 42 42 "x").length = 10 + "x".length ∧
      formatLine 42 42 "x" = (if 42 = 42 then ">> " else "   ") ++
        jsPadStart (natToString 42) 4 ++ " | " ++ "x" ∧
      marked (formatLine 42 42 "x") = true ∧
      (42 ≠ 42 → marked (formatLine 42 42 "x") = false) :=
  line_render_amended 42 42 "x" (by decide)

/-- C8 counterexample: the prefix width is not the same for all line
numbers: with identical (empty) source text, a line numbered 42 renders 10
characters wide while a line numbered 10000 renders 11 characters wide —
`padStart(4)` does not truncate numbers longer than 4 digits, so the claim's
"same prefix width regardless of the line numbers involved" fails. -/
theorem line_render_width_not_fixed :
    ¬ (formatLine 42 7 "").length = (formatLine 10000 7 "").length := by
  decide

/-- C1 witness: under `demoEnv` the first and fifth parsed frames both
symbolicate, and their entries appear in that order in the output. -/
theorem mapStackTrace_order_example :
    ∃ p q : Nat, p < q ∧
      (entriesOf (mapStackTrace demoEnv "E: m"))[p]? = some demoEntryA ∧
      (entriesOf (mapStackTrace demoEnv "E: m"))[q]? = some demoEntryB :=
  mapStackTrace_order demoEnv "E: m" 0 4 demoFrame1 demoFrame2 demoEntryA
    demoEntryB (by decide) rfl rfl (by decide) (by decide)
